import Mathlib

/-!
Verification of the in-page dictionary lookup overlay
(`src/engageai_core/static/js/script.js`).

The development shallowly embeds the word-helper core of `script.js`:
the word boundary scans of the click handler (`world_helper`) and of the
hover handler (`enableWordHover`), the single-entry lookup cache
(`lastWordCache`), the fetch success/failure paths, the overlay renderer
`showHelper` (content and positioning), the dismissal listeners
(`click_handler` and the document `keydown` listener), and the hover
highlight wrap/unwrap machinery (`surroundContents` / `clearActive`).

Text is modelled as `List Char`; DOM text nodes and highlight wrapper
spans as a flat list of nodes; machine state as explicit records.
-/

namespace EngageAI

/-! ## Word-character scanning (shared by the click and hover handlers) -/

/-- The JS word-character class `\w`, i.e. `[A-Za-z0-9_]`. -/
def isWordChar (c : Char) : Bool :=
  (('a' ≤ c) && (c ≤ 'z')) || (('A' ≤ c) && (c ≤ 'Z')) ||
  (('0' ≤ c) && (c ≤ '9')) || (c == '_')

/-- Whether position `i` of `t` holds a word character (out of range: `false`). -/
def wordCharAt (t : List Char) (i : Nat) : Bool :=
  match t.get? i with
  | some c => isWordChar c
  | none => false

/-- Models the JS expression `/\w/.test(text[i])`.  For `i ≥ text.length`,
`text[i]` is `undefined`, which `test` coerces to the string `"undefined"`,
whose characters match `\w` — so the JS test is `true` out of range. -/
def jsWordTest (t : List Char) (i : Nat) : Bool :=
  match t.get? i with
  | some c => isWordChar c
  | none => true

/-- Models `while (start > 0 && /\w/.test(text[start - 1])) start--`. -/
def scanLeft (t : List Char) : Nat → Nat
  | 0 => 0
  | o + 1 => if jsWordTest t o then scanLeft t o else o + 1

/-- Fuel-indexed loop body of the rightward scan; the fuel starts at
`t.length - off`, which bounds the number of iterations because the loop
guard requires `end < text.length`. -/
def scanRightAux (t : List Char) : Nat → Nat → Nat
  | 0, off => off
  | n + 1, off =>
    if off < t.length ∧ jsWordTest t off then scanRightAux t n (off + 1) else off

/-- Models `while (end < text.length && /\w/.test(text[end])) end++`. -/
def scanRight (t : List Char) (off : Nat) : Nat :=
  scanRightAux t (t.length - off) off

/-- Models `text.slice(start, end)` (JS `slice` clamps at the length). -/
def slice (t : List Char) (s e : Nat) : List Char :=
  (t.drop s).take (e - s)

/-- Word resolution of the click handler in `world_helper`
(`script.js` lines 430-441): guard `if (!text) return`, scan both ways
from the caret offset, lower-case, and reject words of length `< 2`. -/
def clickResolve (t : List Char) (off : Nat) : Option (List Char) :=
  if t.length = 0 then none
  else
    let w := (slice t (scanLeft t off) (scanRight t off)).map Char.toLower
    if w.length < 2 then none else some w

/-- Word resolution of the hover handler in `enableWordHover`
(`script.js` lines 530-550): guard `if (!text || !/\w/.test(text[offset]))`,
then scan both ways; the raw slice is used (no lower-casing, no minimum
length). -/
def hoverResolve (t : List Char) (off : Nat) : Option (List Char) :=
  if t.length = 0 ∨ jsWordTest t off = false then none
  else some (slice t (scanLeft t off) (scanRight t off))

/-- A caret hit: `none` when `caretRangeFromPoint` yields no range or the
start container is not a text node; otherwise the text node content and
the character offset. -/
def clickResolveAt : Option (List Char × Nat) → Option (List Char)
  | none => none
  | some (t, off) => clickResolve t off

/-- Hover-path resolution through a caret hit (`none` on non-text hits). -/
def hoverResolveAt : Option (List Char × Nat) → Option (List Char)
  | none => none
  | some (t, off) => hoverResolve t off

/-- A maximal run of word characters `[s, e)` of `t`: all inner positions
are word characters and both boundaries are not (an out-of-range boundary
counts as a non-word character). -/
def IsMaxRun (t : List Char) (s e : Nat) : Prop :=
  s ≤ e ∧ e ≤ t.length ∧
  (∀ i, i < e → s ≤ i → wordCharAt t i = true) ∧
  (s = 0 ∨ wordCharAt t (s - 1) = false) ∧
  wordCharAt t e = false

instance (t : List Char) (s e : Nat) : Decidable (IsMaxRun t s e) := by
  unfold IsMaxRun
  infer_instance

/-! ## DOM surface model for the hover highlight controller -/

/-- A node of an annotated surface: a plain text node, or the highlight
wrapper `<span class="word-hover">` holding one text child. -/
inductive DomNode where
  | text (s : List Char)
  | span (s : List Char)
deriving DecidableEq, Repr

/-- An annotated surface as the flat list of its nodes. -/
abbrev Surface := List DomNode

/-- The `textContent` of one node. -/
def nodeText : DomNode → List Char
  | .text s => s
  | .span s => s

/-- Whether a node is a highlight wrapper span. -/
def isSpan : DomNode → Bool
  | .span _ => true
  | .text _ => false

/-- The concatenated `textContent` of a surface. -/
def surfaceText (sf : Surface) : List Char :=
  (sf.map nodeText).flatten

/-- Number of highlight wrapper spans present in a surface. -/
def spanCount (sf : Surface) : Nat :=
  (sf.filter isSpan).length

/-- The `textContent` of the active span, if a span is present. -/
def activeText (sf : Surface) : Option (List Char) :=
  (sf.find? isSpan).map nodeText

/-- Unwrapping one node: `clearActive` moves the span's children out and
removes the span, leaving its text in place as a plain text node. -/
def clearNode : DomNode → DomNode
  | .span s => .text s
  | .text s => .text s

/-- Models `clearActive` (`script.js` lines 568-577): the active span is
replaced by its text content; the split text nodes are not re-merged. -/
def clearActive (sf : Surface) : Surface :=
  sf.map clearNode

/-- Models `Range.surroundContents` for a range `[a, b)` lying inside a
single text node with content `t`: the node is split into the part before
the range (if nonempty), the wrapper span holding the range's text, and
the part after the range (if nonempty). -/
def wrapNode (t : List Char) (a b : Nat) : List DomNode :=
  (if 0 < a then [DomNode.text (slice t 0 a)] else []) ++
  [DomNode.span (slice t a b)] ++
  (if b < t.length then [DomNode.text (slice t b t.length)] else [])

/-- Replace the node at index `i` by a list of nodes. -/
def replaceAt (sf : Surface) (i : Nat) (ns : List DomNode) : Surface :=
  sf.take i ++ ns ++ sf.drop (i + 1)

/-- One `mousemove` step of `enableWordHover` (`script.js` lines 522-563):
the caret resolves to node `i` at offset `off`; a non-word position clears
the highlight, a position inside the currently highlighted word is a no-op,
anything else clears the old span and wraps the new run. -/
def hoverMove (sf : Surface) (i off : Nat) : Surface :=
  match sf.get? i with
  | none => sf
  | some nd =>
    if (nodeText nd).length = 0 ∨ jsWordTest (nodeText nd) off = false then
      clearActive sf
    else if activeText sf =
        some (slice (nodeText nd) (scanLeft (nodeText nd) off) (scanRight (nodeText nd) off)) then
      sf
    else
      replaceAt (clearActive sf) i
        (wrapNode (nodeText nd) (scanLeft (nodeText nd) off) (scanRight (nodeText nd) off))

/-- Pointer events observed by the hover controller. -/
inductive HoverEvent where
  | move (i off : Nat)
  | leave
deriving DecidableEq, Repr

/-- One event step: `mousemove` runs `hoverMove`; `mouseleave` runs
`clearActive`. -/
def hoverStep (sf : Surface) : HoverEvent → Surface
  | .move i off => hoverMove sf i off
  | .leave => clearActive sf

/-- A whole sequence of pointer events. -/
def hoverRun (sf : Surface) : List HoverEvent → Surface
  | [] => sf
  | e :: es => hoverRun (hoverStep sf e) es

/-- Failure mode of `Range` operations: `setStart`/`setEnd` throw
`IndexSizeError` on an offset beyond the node's length (for a range inside
a single text node, `surroundContents` itself cannot fail). -/
inductive WrapError where
  | badRange
deriving DecidableEq, Repr

/-- Fallible wrap: building the range and calling `surroundContents`
succeeds exactly when the offsets are valid for the text node. -/
def tryWrap (sf : Surface) (i : Nat) (t : List Char) (a b : Nat) :
    Except WrapError Surface :=
  if a ≤ b ∧ b ≤ t.length then Except.ok (replaceAt sf i (wrapNode t a b))
  else Except.error WrapError.badRange

/-- The `mousemove` handler with the wrap modelled as fallible, to ask
whether any event can make the wrap throw. -/
def hoverMoveE (sf : Surface) (i off : Nat) : Except WrapError Surface :=
  match sf.get? i with
  | none => Except.ok sf
  | some nd =>
    if (nodeText nd).length = 0 ∨ jsWordTest (nodeText nd) off = false then
      Except.ok (clearActive sf)
    else if activeText sf =
        some (slice (nodeText nd) (scanLeft (nodeText nd) off) (scanRight (nodeText nd) off)) then
      Except.ok sf
    else
      tryWrap (clearActive sf) i (nodeText nd)
        (scanLeft (nodeText nd) off) (scanRight (nodeText nd) off)

/-! ## Definition data and the overlay renderer (`showHelper`) -/

/-- One sense of a definition. -/
structure Sense where
  gloss : String
deriving DecidableEq, Repr

/-- One pronunciation; the audio URL may be absent. -/
structure Pronunciation where
  audio_url : Option String
deriving DecidableEq, Repr

/-- The definition payload returned by `/wh/word/<word>/`. -/
structure DefinitionData where
  word : String
  pos : Option String
  ipa : Option String
  senses : List Sense
  pronunciations : List Pronunciation
deriving DecidableEq, Repr

/-- JS truthiness on an optional string: `undefined` and `""` are falsy. -/
def optTruthy : Option String → Option String
  | some s => if s = "" then none else some s
  | none => none

/-- The observable content produced by `showHelper` (`script.js` lines
467-498): the header word, the optional `(pos)` and IPA lines, the list
items of `senses.slice(0, 2)`, and the audio source if
`pronunciations?.[0]?.audio_url` is truthy. -/
structure RenderedHelper where
  headerWord : String
  headerPos : Option String
  headerIpa : Option String
  glossItems : List String
  audioSrc : Option String
deriving DecidableEq, Repr

/-- Content construction of `showHelper`. -/
def renderHelper (d : DefinitionData) : RenderedHelper :=
  { headerWord := d.word
  , headerPos := optTruthy d.pos
  , headerIpa := optTruthy d.ipa
  , glossItems := (d.senses.take 2).map Sense.gloss
  , audioSrc := optTruthy (d.pronunciations.head?.bind Pronunciation.audio_url) }

/-- Positioning of `showHelper` (`script.js` lines 500-514): the panel's
`style.left`/`style.top` from the click's client coordinates `(x, y)`, the
measured panel size `(w, h)` and the viewport `innerWidth`/`innerHeight`.
No scroll offset enters the computation. -/
def showHelperPos (x y w h innerW innerH : Int) : Int × Int :=
  let left0 := x + 10
  let top0 := y + 10
  let left := if innerW < left0 + w then innerW - w - 10 else left0
  let top := if innerH < top0 + h then innerH - h - 10 else top0
  (left, top)

/-- The positioning the spec describes (spec 4.5): the anchor adjusted for
page scroll into document coordinates, then clamped against the viewport
edges expressed in document coordinates. -/
def specClampPosition (x y w h innerW innerH scrollX scrollY : Int) : Int × Int :=
  let left0 := x + scrollX + 10
  let top0 := y + scrollY + 10
  let vRight := scrollX + innerW
  let vBottom := scrollY + innerH
  let left := if vRight < left0 + w then vRight - w - 10 else left0
  let top := if vBottom < top0 + h then vBottom - h - 10 else top0
  (left, top)

/-! ## Session state: cache, overlay visibility, modal, dismissal -/

/-- Result of the `fetch` round trip in the click handler: `res.ok` with
parsed data, a non-2xx response (the `else` branch), or a thrown transport
or JSON parse error (the `catch` branch). -/
inductive FetchOutcome where
  | ok (d : DefinitionData)
  | httpError
  | networkError
deriving DecidableEq, Repr

/-- Page-wide mutable state touched by the word helper:
`lastWordCache`, the helper panel's visibility (`helperEl.style.display`),
and whether the app modal (`#app-modal`) is open. -/
structure Session where
  lastWordCache : Option (String × DefinitionData)
  helperVisible : Bool
  modalOpen : Bool
deriving DecidableEq, Repr

/-- Observable outcome of one click lookup: the new state, whether a
network request was issued, whether `showHelper` ran, and whether
`console.error` logged a failure. -/
structure LookupResult where
  st : Session
  fetched : Bool
  rendered : Bool
  logged : Bool
deriving DecidableEq, Repr

/-- Whether the incoming word hits the single-entry cache
(`lastWordCache && lastWordCache.word === word`). -/
def cacheHit (st : Session) (w : String) : Bool :=
  match st.lastWordCache with
  | some (cw, _) => cw = w
  | none => false

/-- The fetch path of the click handler (`script.js` lines 450-463):
`res.ok` writes the cache and shows the helper; a non-2xx response hides
it silently; a thrown error logs and hides it. -/
def fetchPath (st : Session) (w : String) (net : FetchOutcome) : LookupResult :=
  match net with
  | .ok d =>
    { st := { st with lastWordCache := some (w, d), helperVisible := true }
    , fetched := true, rendered := true, logged := false }
  | .httpError =>
    { st := { st with helperVisible := false }
    , fetched := true, rendered := false, logged := false }
  | .networkError =>
    { st := { st with helperVisible := false }
    , fetched := true, rendered := false, logged := true }

/-- One click lookup for an already-resolved word (`script.js` lines
443-463): on a cache hit `showHelper` runs with the cached data and no
request is made; otherwise the fetch path runs. -/
def lookupStep (st : Session) (w : String) (net : FetchOutcome) : LookupResult :=
  match st.lastWordCache with
  | some (cw, _) =>
    if cw = w then
      { st := { st with helperVisible := true }
      , fetched := false, rendered := true, logged := false }
    else fetchPath st w net
  | none => fetchPath st w net

/-- The document `keydown` listener (`script.js` lines 193-197): `Escape`
closes the app modal when it is open.  No listener hides the word-helper
panel on `Escape`. -/
def escapeStep (st : Session) : Session :=
  { st with modalOpen := false }

/-- The document `click` listener installed by `click_handler`
(`script.js` lines 403-409): a click that is neither inside the helper
panel nor inside a `.word-helper` surface hides the panel. -/
def outsideClickStep (st : Session) (inHelper inSurface : Bool) : Session :=
  if inHelper = false ∧ inSurface = false then { st with helperVisible := false }
  else st

/-! ## Concrete example data used by witnesses and counterexamples -/

def catW : String := "cat"

def dogW : String := "dog"

def nounS : String := "noun"

def emptyS : String := ""

def glossA : String := "a small animal"

def audioA : String := "cat.mp3"

def exData : DefinitionData :=
  { word := catW, pos := some nounS, ipa := none
  , senses := [⟨glossA⟩], pronunciations := [] }

def exDataDog : DefinitionData :=
  { word := dogW, pos := none, ipa := none
  , senses := [], pronunciations := [⟨some audioA⟩] }

/-- Counterexample payload for claim 9: the part-of-speech field is
present but empty. -/
def exDataEmptyPos : DefinitionData :=
  { word := catW, pos := some emptyS, ipa := none
  , senses := [⟨glossA⟩], pronunciations := [] }

def exRunText : List Char := ['x', 'y', 'z', ' ']

def exShortText : List Char := ['A', ' ', 'b']

def exSurf : Surface := [DomNode.text ['a', 'b', ' ', 'c', 'd']]

def exEvents : List HoverEvent :=
  [HoverEvent.move 0 0, HoverEvent.move 0 3, HoverEvent.leave]

def exSurfC10 : Surface :=
  [DomNode.span ['c', 'a', 't'], DomNode.text [' ', 'c', 'a', 't']]

def st3Empty : Session := { lastWordCache := none, helperVisible := false, modalOpen := false }

def st3Hit : Session := { lastWordCache := some (catW, exData), helperVisible := false, modalOpen := false }

def st4Visible : Session := { lastWordCache := some (catW, exData), helperVisible := true, modalOpen := true }

/-! ## Lemmas about the boundary scans -/

theorem get?_some_lt {α : Type} {l : List α} {i : Nat} {x : α}
    (h : l.get? i = some x) : i < l.length := by
  rcases List.get?_eq_some.mp h with ⟨hl, _⟩
  exact hl

theorem wordCharAt_lt {t : List Char} {i : Nat} (h : wordCharAt t i = true) :
    i < t.length := by
  by_cases hlt : i < t.length
  · exact hlt
  · exfalso
    unfold wordCharAt at h
    rw [List.get?_eq_none.mpr (Nat.le_of_not_lt hlt)] at h
    simp at h

theorem jsWordTest_eq_wordCharAt (t : List Char) (i : Nat) (h : i < t.length) :
    jsWordTest t i = wordCharAt t i := by
  unfold jsWordTest wordCharAt
  cases hg : t.get? i with
  | none => exact absurd (List.get?_eq_none.mp hg) (Nat.not_le.mpr h)
  | some c => rfl

theorem jsWordTest_false_lt {t : List Char} {i : Nat} (h : jsWordTest t i = false) :
    i < t.length := by
  by_cases hlt : i < t.length
  · exact hlt
  · exfalso
    unfold jsWordTest at h
    rw [List.get?_eq_none.mpr (Nat.le_of_not_lt hlt)] at h
    simp at h

theorem scanLeft_le (t : List Char) : ∀ off, scanLeft t off ≤ off
  | 0 => Nat.le_refl 0
  | o + 1 => by
    unfold scanLeft
    by_cases h : jsWordTest t o = true
    · rw [if_pos h]
      exact Nat.le_succ_of_le (scanLeft_le t o)
    · rw [if_neg h]

theorem scanLeft_le_length (t : List Char) : ∀ off, scanLeft t off ≤ t.length
  | 0 => Nat.zero_le _
  | o + 1 => by
    unfold scanLeft
    by_cases h : jsWordTest t o = true
    · rw [if_pos h]
      exact scanLeft_le_length t o
    · rw [if_neg h]
      exact jsWordTest_false_lt (Bool.eq_false_iff.mpr h)

theorem scanLeft_eq (t : List Char) (s : Nat) :
    ∀ off, s ≤ off → off ≤ t.length →
      (∀ i, s ≤ i → i < off → wordCharAt t i = true) →
      (s = 0 ∨ wordCharAt t (s - 1) = false) →
      scanLeft t off = s
  | 0, hs, _, _, _ => by
    have : s = 0 := Nat.le_zero.mp hs
    simp [scanLeft, this]
  | o + 1, hs, hlen, hrun, hb => by
    unfold scanLeft
    rcases Nat.lt_or_ge s (o + 1) with hlt | hge
    · have hso : s ≤ o := Nat.lt_succ_iff.mp hlt
      have hw : wordCharAt t o = true := hrun o hso (Nat.lt_succ_self o)
      have hjs : jsWordTest t o = true := by
        rw [jsWordTest_eq_wordCharAt t o (wordCharAt_lt hw)]
        exact hw
      rw [if_pos hjs]
      exact scanLeft_eq t s o hso (Nat.le_of_lt hlen)
        (fun i h1 h2 => hrun i h1 (Nat.lt_succ_of_lt h2)) hb
    · have hseq : s = o + 1 := Nat.le_antisymm hs hge
      rcases hb with h0 | hwb
      · omega
      · have ho : o < t.length := hlen
        have hjs : jsWordTest t o = false := by
          rw [jsWordTest_eq_wordCharAt t o ho]
          have : s - 1 = o := by omega
          rw [← this]
          exact hwb
        rw [if_neg (by simp [hjs])]
        omega

theorem scanRightAux_ge (t : List Char) : ∀ n off, off ≤ scanRightAux t n off
  | 0, off => Nat.le_refl off
  | n + 1, off => by
    unfold scanRightAux
    by_cases h : off < t.length ∧ jsWordTest t off = true
    · rw [if_pos h]
      exact Nat.le_trans (Nat.le_succ off) (scanRightAux_ge t n (off + 1))
    · rw [if_neg h]

theorem scanRightAux_le_length (t : List Char) :
    ∀ n off, off ≤ t.length → scanRightAux t n off ≤ t.length
  | 0, _, h => h
  | n + 1, off, h => by
    unfold scanRightAux
    by_cases hc : off < t.length ∧ jsWordTest t off = true
    · rw [if_pos hc]
      exact scanRightAux_le_length t n (off + 1) hc.1
    · rw [if_neg hc]
      exact h

theorem scanRightAux_eq (t : List Char) (e : Nat) (hend : wordCharAt t e = false) :
    ∀ n off, e ≤ off + n → off ≤ e →
      (∀ i, off ≤ i → i < e → wordCharAt t i = true) →
      scanRightAux t n off = e
  | 0, off, h1, h2, _ => by
    unfold scanRightAux
    omega
  | n + 1, off, h1, h2, hrun => by
    unfold scanRightAux
    rcases Nat.lt_or_ge off e with hlt | hge
    · have hw : wordCharAt t off = true := hrun off (Nat.le_refl off) hlt
      have hol : off < t.length := wordCharAt_lt hw
      have hjs : jsWordTest t off = true := by
        rw [jsWordTest_eq_wordCharAt t off hol]
        exact hw
      rw [if_pos ⟨hol, hjs⟩]
      exact scanRightAux_eq t e hend n (off + 1) (by omega) hlt
        (fun i hi1 hi2 => hrun i (Nat.le_of_succ_le hi1) hi2)
    · have : off = e := Nat.le_antisymm h2 hge
      subst this
      rw [if_neg ?_]
      intro hc
      rw [jsWordTest_eq_wordCharAt t off hc.1] at hc
      rw [hend] at hc
      exact absurd hc.2 (by simp)

theorem scanRight_ge (t : List Char) (off : Nat) : off ≤ scanRight t off :=
  scanRightAux_ge t (t.length - off) off

theorem scanRight_le_length (t : List Char) (off : Nat) (h : off ≤ t.length) :
    scanRight t off ≤ t.length :=
  scanRightAux_le_length t (t.length - off) off h

theorem scanRight_eq (t : List Char) (off e : Nat) (hoe : off ≤ e) (hel : e ≤ t.length)
    (hrun : ∀ i, off ≤ i → i < e → wordCharAt t i = true)
    (hend : wordCharAt t e = false) :
    scanRight t off = e :=
  scanRightAux_eq t e hend (t.length - off) off (by omega) hoe hrun

theorem slice_length (t : List Char) (s e : Nat) (hse : s ≤ e) (hel : e ≤ t.length) :
    (slice t s e).length = e - s := by
  unfold slice
  rw [List.length_take, List.length_drop]
  omega

/-! ## Lemmas about the surface model -/

theorem eq_take_cons_drop {α : Type} :
    ∀ (l : List α) (i : Nat) (x : α), l.get? i = some x →
      l = l.take i ++ x :: l.drop (i + 1)
  | [], i, x, h => by simp at h
  | hd :: tl, 0, x, h => by
    simp at h
    simp [h]
  | hd :: tl, i + 1, x, h => by
    have h2 : tl.get? i = some x := h
    have ih := eq_take_cons_drop tl i x h2
    simp only [List.take_succ_cons, List.drop_succ_cons, List.cons_append]
    exact congrArg (hd :: ·) ih

theorem surfaceText_append (l1 l2 : Surface) :
    surfaceText (l1 ++ l2) = surfaceText l1 ++ surfaceText l2 := by
  unfold surfaceText
  rw [List.map_append, List.flatten_append]

theorem surfaceText_cons (n : DomNode) (sf : Surface) :
    surfaceText (n :: sf) = nodeText n ++ surfaceText sf := rfl

theorem nodeText_clearNode (n : DomNode) : nodeText (clearNode n) = nodeText n := by
  cases n <;> rfl

theorem isSpan_clearNode (n : DomNode) : isSpan (clearNode n) = false := by
  cases n <;> rfl

theorem surfaceText_clearActive (sf : Surface) :
    surfaceText (clearActive sf) = surfaceText sf := by
  induction sf with
  | nil => rfl
  | cons hd tl ih =>
    show surfaceText (clearNode hd :: clearActive tl) = surfaceText (hd :: tl)
    rw [surfaceText_cons, surfaceText_cons, nodeText_clearNode, ih]

theorem spanCount_cons (n : DomNode) (sf : Surface) :
    spanCount (n :: sf) = (if isSpan n then 1 else 0) + spanCount sf := by
  unfold spanCount
  cases hn : isSpan n <;> simp [List.filter_cons, hn] <;> omega

theorem spanCount_clearActive (sf : Surface) : spanCount (clearActive sf) = 0 := by
  induction sf with
  | nil => rfl
  | cons hd tl ih =>
    show spanCount (clearNode hd :: clearActive tl) = 0
    rw [spanCount_cons, isSpan_clearNode, ih]
    simp

theorem spanCount_append (l1 l2 : Surface) :
    spanCount (l1 ++ l2) = spanCount l1 + spanCount l2 := by
  unfold spanCount
  rw [List.filter_append, List.length_append]

theorem spanCount_eq_zero_of_forall {sf : Surface}
    (h : ∀ n ∈ sf, isSpan n = false) : spanCount sf = 0 := by
  unfold spanCount
  rw [List.length_eq_zero, List.filter_eq_nil_iff]
  intro a ha
  simp [h a ha]

theorem clearActive_no_span (sf : Surface) :
    ∀ n ∈ clearActive sf, isSpan n = false := by
  intro n hn
  rcases List.mem_map.mp hn with ⟨m, _, rfl⟩
  exact isSpan_clearNode m

theorem spanCount_wrapNode (t : List Char) (a b : Nat) :
    spanCount (wrapNode t a b) = 1 := by
  unfold wrapNode
  by_cases h1 : 0 < a <;> by_cases h2 : b < t.length <;>
    simp [h1, h2, spanCount_append, spanCount_cons, spanCount, isSpan]

theorem get?_clearActive (sf : Surface) (i : Nat) :
    (clearActive sf).get? i = (sf.get? i).map clearNode :=
  List.get?_map clearNode sf i

theorem wrapNode_text (t : List Char) (a b : Nat) (hab : a ≤ b) (hal : a ≤ t.length) :
    surfaceText (wrapNode t a b) = t := by
  have hdrop : (t.drop a).take (b - a) ++ t.drop b = t.drop a := by
    have h := List.drop_take_append_drop t a (b - a)
    rwa [show a + (b - a) = b by omega] at h
  by_cases h2 : b < t.length
  · have htail : (t.drop b).take (t.length - b) = t.drop b :=
      List.take_of_length_le (by rw [List.length_drop])
    by_cases h1 : 0 < a <;>
      simp only [wrapNode, surfaceText, h1, h2, if_pos, if_neg, if_true, if_false,
        reduceIte, List.map_append, List.flatten_append, List.map_cons, List.map_nil,
        List.flatten_cons, List.flatten_nil, nodeText, slice, List.append_nil,
        List.drop_zero, Nat.sub_zero] <;>
      rw [htail]
    · rw [List.append_assoc, hdrop, List.take_append_drop]
    · have : a = 0 := by omega
      subst this
      rw [List.drop_zero] at hdrop
      simpa using hdrop
  · have hbl : t.length ≤ b := Nat.le_of_not_lt h2
    have hfull : (t.drop a).take (b - a) = t.drop a :=
      List.take_of_length_le (by rw [List.length_drop]; omega)
    by_cases h1 : 0 < a <;>
      simp only [wrapNode, surfaceText, h1, h2, if_pos, if_neg, if_true, if_false,
        reduceIte, List.map_append, List.flatten_append, List.map_cons, List.map_nil,
        List.flatten_cons, List.flatten_nil, nodeText, slice, List.append_nil,
        List.drop_zero, Nat.sub_zero]
    · rw [hfull, List.take_append_drop]
    · have : a = 0 := by omega
      subst this
      rw [List.drop_zero] at hfull
      simpa using hfull

theorem surfaceText_replaceAt (sf : Surface) (i : Nat) (nd : DomNode) (t : List Char)
    (a b : Nat) (hget : sf.get? i = some nd) (hnd : nodeText nd = t)
    (hab : a ≤ b) (hal : a ≤ t.length) :
    surfaceText (replaceAt sf i (wrapNode t a b)) = surfaceText sf := by
  conv_rhs => rw [eq_take_cons_drop sf i nd hget]
  unfold replaceAt
  rw [surfaceText_append, surfaceText_append, surfaceText_append, surfaceText_cons,
    wrapNode_text t a b hab hal, hnd, List.append_assoc]

theorem spanCount_replace_clear (sf : Surface) (i : Nat) (t : List Char) (a b : Nat) :
    spanCount (replaceAt (clearActive sf) i (wrapNode t a b)) = 1 := by
  unfold replaceAt
  rw [spanCount_append, spanCount_append, spanCount_wrapNode]
  have h1 : spanCount ((clearActive sf).take i) = 0 :=
    spanCount_eq_zero_of_forall
      (fun n hn => clearActive_no_span sf n (List.take_subset i _ hn))
  have h2 : spanCount ((clearActive sf).drop (i + 1)) = 0 :=
    spanCount_eq_zero_of_forall
      (fun n hn => clearActive_no_span sf n (List.drop_subset _ _ hn))
  omega

/-! ## Step lemmas for the hover highlight state machine -/

theorem surfaceText_hoverMove (sf : Surface) (i off : Nat) :
    surfaceText (hoverMove sf i off) = surfaceText sf := by
  unfold hoverMove
  split
  next => rfl
  next nd hget =>
    split
    next h1 => exact surfaceText_clearActive sf
    next h1 =>
      split
      next h2 => rfl
      next h2 =>
        have hget2 : (clearActive sf).get? i = some (clearNode nd) := by
          rw [get?_clearActive, hget]
          rfl
        have hab : scanLeft (nodeText nd) off ≤ scanRight (nodeText nd) off :=
          Nat.le_trans (scanLeft_le _ off) (scanRight_ge _ off)
        have hal : scanLeft (nodeText nd) off ≤ (nodeText nd).length :=
          scanLeft_le_length _ off
        rw [surfaceText_replaceAt (clearActive sf) i (clearNode nd) (nodeText nd) _ _
          hget2 (nodeText_clearNode nd) hab hal]
        exact surfaceText_clearActive sf

theorem spanCount_hoverMove (sf : Surface) (i off : Nat) (h : spanCount sf ≤ 1) :
    spanCount (hoverMove sf i off) ≤ 1 := by
  unfold hoverMove
  split
  next => exact h
  next nd hget =>
    split
    next h1 =>
      rw [spanCount_clearActive]
      omega
    next h1 =>
      split
      next h2 => exact h
      next h2 => rw [spanCount_replace_clear]

theorem surfaceText_hoverStep (sf : Surface) (ev : HoverEvent) :
    surfaceText (hoverStep sf ev) = surfaceText sf := by
  cases ev with
  | move i off => exact surfaceText_hoverMove sf i off
  | leave => exact surfaceText_clearActive sf

theorem spanCount_hoverStep (sf : Surface) (ev : HoverEvent) (h : spanCount sf ≤ 1) :
    spanCount (hoverStep sf ev) ≤ 1 := by
  cases ev with
  | move i off => exact spanCount_hoverMove sf i off h
  | leave =>
    show spanCount (clearActive sf) ≤ 1
    rw [spanCount_clearActive]
    omega

theorem hoverRun_inv :
    ∀ (evs : List HoverEvent) (sf : Surface), spanCount sf ≤ 1 →
      spanCount (hoverRun sf evs) ≤ 1 ∧ surfaceText (hoverRun sf evs) = surfaceText sf
  | [], sf, h => ⟨h, rfl⟩
  | e :: es, sf, h => by
    have h1 := spanCount_hoverStep sf e h
    obtain ⟨ha, hb⟩ := hoverRun_inv es (hoverStep sf e) h1
    exact ⟨ha, hb.trans (surfaceText_hoverStep sf e)⟩

/-! ## Claim theorems -/

/-- C1 (amended): on a text position inside a maximal run `[s, e)` of word
characters, the click-lookup resolver returns the lowercased maximal run
when `e - s ≥ 2` and `none` when `e - s < 2`; the hover-highlight resolver
returns the raw maximal run with no lower-casing and no minimum-length
rejection, and returns `none` on an in-range non-word character; both paths
return `none` on a non-text position. -/
theorem claim1_resolver_amended (t : List Char) (off s e : Nat)
    (hrun : IsMaxRun t s e) (hs : s ≤ off) (he : off < e) :
    hoverResolve t off = some (slice t s e) ∧
    (2 ≤ e - s → clickResolve t off = some ((slice t s e).map Char.toLower)) ∧
    (e - s < 2 → clickResolve t off = none) ∧
    (∀ (u : List Char) (o : Nat), o < u.length → wordCharAt u o = false →
      hoverResolve u o = none) ∧
    clickResolveAt none = none ∧ hoverResolveAt none = none := by
  obtain ⟨hse, hel, hmid, hleft, hright⟩ := hrun
  have hoffl : off < t.length := Nat.lt_of_lt_of_le he hel
  have hsl : scanLeft t off = s :=
    scanLeft_eq t s off hs (Nat.le_of_lt hoffl)
      (fun i h1 h2 => hmid i (Nat.lt_of_lt_of_le h2 (Nat.le_of_lt he)) h1) hleft
  have hsr : scanRight t off = e :=
    scanRight_eq t off e (Nat.le_of_lt he) hel
      (fun i h1 h2 => hmid i h2 (Nat.le_trans hs h1)) hright
  have hwoff : wordCharAt t off = true := hmid off he hs
  have hlen0 : ¬ t.length = 0 := by omega
  have hjs : jsWordTest t off = true := by
    rw [jsWordTest_eq_wordCharAt t off hoffl]
    exact hwoff
  have hwlen : ((slice t s e).map Char.toLower).length = e - s := by
    rw [List.length_map, slice_length t s e hse hel]
  refine ⟨?_, ?_, ?_, ?_, rfl, rfl⟩
  · unfold hoverResolve
    rw [if_neg (by simp [hlen0, hjs]), hsl, hsr]
  · intro h2
    unfold clickResolve
    rw [if_neg hlen0, hsl, hsr]
    simp only [hwlen]
    rw [if_neg (by omega)]
  · intro h2
    unfold clickResolve
    rw [if_neg hlen0, hsl, hsr]
    simp only [hwlen]
    rw [if_pos (by omega)]
  · intro u o ho hw
    unfold hoverResolve
    rw [if_pos (Or.inr (by rw [jsWordTest_eq_wordCharAt u o ho]; exact hw))]

/-- Witness for C1 at the text `"xyz "`: offset 1 lies inside the maximal
run `[0, 3)`, and the hover resolver returns that run. -/
theorem claim1_resolver_amended_witness :
    IsMaxRun exRunText 0 3 ∧ hoverResolve exRunText 1 = some (slice exRunText 0 3) :=
  ⟨by decide, (claim1_resolver_amended exRunText 1 0 3 (by decide) (by decide) (by decide)).1⟩

/-- C1 counterexample: in `"A b"`, offset 0 lies in a maximal run of length
1 (< 2), yet the hover resolver returns the word `"A"` (not `none`, and not
lowercased), contradicting the claim that both paths reject runs shorter
than 2 and lowercase the result. -/
theorem claim1_hover_counterexample :
    IsMaxRun exShortText 0 1 ∧ hoverResolve exShortText 0 = some ['A'] := by
  constructor
  · decide
  · decide

/-- C2: starting from a span-free surface, after any sequence of pointer
moves and leaves, at most one highlight wrapper span exists, and the
concatenated text content equals the original byte-for-byte. -/
theorem claim2_highlight_invariant (sf : Surface) (evs : List HoverEvent)
    (h : spanCount sf = 0) :
    spanCount (hoverRun sf evs) ≤ 1 ∧
    surfaceText (hoverRun sf evs) = surfaceText sf :=
  hoverRun_inv evs sf (by omega)

/-- Witness for C2 on a concrete surface and event sequence. -/
theorem claim2_highlight_invariant_witness :
    spanCount (hoverRun exSurf exEvents) ≤ 1 ∧
    surfaceText (hoverRun exSurf exEvents) = surfaceText exSurf :=
  claim2_highlight_invariant exSurf exEvents (by decide)

/-- C6: no hover event can make the wrap fail — the range built by the
handler always lies inside one text node with in-bounds offsets, so the
fallible-wrap model of the handler always returns `ok` (never an error),
agreeing with the total model; hence no exception escapes the handler. -/
theorem claim6_wrap_total (sf : Surface) (i off : Nat) (nd : DomNode)
    (hget : sf.get? i = some nd) (hoff : off ≤ (nodeText nd).length) :
    hoverMoveE sf i off = Except.ok (hoverMove sf i off) := by
  unfold hoverMoveE hoverMove
  rw [hget]
  show (if (nodeText nd).length = 0 ∨ jsWordTest (nodeText nd) off = false then
      Except.ok (clearActive sf)
    else if activeText sf =
        some (slice (nodeText nd) (scanLeft (nodeText nd) off) (scanRight (nodeText nd) off)) then
      Except.ok sf
    else
      tryWrap (clearActive sf) i (nodeText nd)
        (scanLeft (nodeText nd) off) (scanRight (nodeText nd) off)) =
    Except.ok (if (nodeText nd).length = 0 ∨ jsWordTest (nodeText nd) off = false then
      clearActive sf
    else if activeText sf =
        some (slice (nodeText nd) (scanLeft (nodeText nd) off) (scanRight (nodeText nd) off)) then
      sf
    else
      replaceAt (clearActive sf) i
        (wrapNode (nodeText nd) (scanLeft (nodeText nd) off) (scanRight (nodeText nd) off)))
  by_cases h1 : (nodeText nd).length = 0 ∨ jsWordTest (nodeText nd) off = false
  · rw [if_pos h1, if_pos h1]
  · rw [if_neg h1, if_neg h1]
    by_cases h2 : activeText sf =
        some (slice (nodeText nd) (scanLeft (nodeText nd) off) (scanRight (nodeText nd) off))
    · rw [if_pos h2, if_pos h2]
    · rw [if_neg h2, if_neg h2]
      unfold tryWrap
      rw [if_pos ⟨Nat.le_trans (scanLeft_le _ off) (scanRight_ge _ off),
        scanRight_le_length _ off hoff⟩]

/-- Witness for C6 at a concrete surface and event. -/
theorem claim6_wrap_total_witness :
    hoverMoveE exSurf 0 0 = Except.ok (hoverMove exSurf 0 0) :=
  claim6_wrap_total exSurf 0 0 (DomNode.text ['a', 'b', ' ', 'c', 'd'])
    (by decide) (by decide)

/-- C7 (amended): a wrap followed by an unwrap preserves the surface's
concatenated text content and leaves no wrapper spans, but it is not the
identity on the node tree (the counterexample shows the split text nodes
are not re-merged). -/
theorem claim7_unwrap_amended (sf : Surface) (i off : Nat) :
    surfaceText (clearActive (hoverMove sf i off)) = surfaceText sf ∧
    spanCount (clearActive (hoverMove sf i off)) = 0 :=
  ⟨(surfaceText_clearActive _).trans (surfaceText_hoverMove sf i off),
   spanCount_clearActive _⟩

/-- C7 counterexample: wrapping `"ab"` inside the single text node
`"ab cd"` and unwrapping yields two text nodes `"ab"` and `" cd"`, not the
original single node — wrap;unwrap is not the identity on the node tree,
although the text content is preserved. -/
theorem claim7_node_structure_counterexample :
    hoverRun exSurf [HoverEvent.move 0 0, HoverEvent.leave] ≠ exSurf ∧
    surfaceText (hoverRun exSurf [HoverEvent.move 0 0, HoverEvent.leave]) =
      surfaceText exSurf := by
  constructor
  · decide
  · decide

/-- C10: the hover controller's same-word no-op check compares the active
span's raw text with the newly resolved run's text, not positions: a move
onto any node whose resolved run spells the same as the active span's text
leaves the surface (and hence the highlight's position) unchanged. -/
theorem claim10_same_word_noop (sf : Surface) (i off : Nat) (t w : List Char)
    (hget : sf.get? i = some (DomNode.text t))
    (hlen : ¬ t.length = 0)
    (hw : jsWordTest t off = true)
    (hactive : activeText sf = some w)
    (hslice : slice t (scanLeft t off) (scanRight t off) = w) :
    hoverMove sf i off = sf := by
  unfold hoverMove
  rw [hget]
  show (if (nodeText (DomNode.text t)).length = 0 ∨
        jsWordTest (nodeText (DomNode.text t)) off = false then clearActive sf
      else if activeText sf = some (slice (nodeText (DomNode.text t))
          (scanLeft (nodeText (DomNode.text t)) off)
          (scanRight (nodeText (DomNode.text t)) off)) then sf
      else replaceAt (clearActive sf) i
        (wrapNode (nodeText (DomNode.text t))
          (scanLeft (nodeText (DomNode.text t)) off)
          (scanRight (nodeText (DomNode.text t)) off))) = sf
  rw [if_neg (by simp [nodeText, hlen, hw]), if_pos (by rw [nodeText, hslice]; exact hactive)]

/-- Witness for C10: the active span holds `"cat"` at node 0; a move onto
the other occurrence of `"cat"` in node 1 changes nothing. -/
theorem claim10_same_word_noop_witness :
    hoverMove exSurfC10 1 1 = exSurfC10 :=
  claim10_same_word_noop exSurfC10 1 1 [' ', 'c', 'a', 't'] ['c', 'a', 't']
    (by decide) (by decide) (by decide) (by decide) (by decide)

/-- C3 (amended): a click lookup makes no network request exactly when its
word equals the currently cached word, in which case the cached data is
shown and the cache is untouched; a lookup whose word misses the cache
always issues a request, and only a successful fetch replaces the single
cache entry (failures leave the previous entry in place). -/
theorem claim3_cache_amended (st : Session) (w : String) (net : FetchOutcome) :
    (∀ d, st.lastWordCache = some (w, d) →
      (lookupStep st w net).fetched = false ∧
      (lookupStep st w net).rendered = true ∧
      (lookupStep st w net).st.lastWordCache = some (w, d)) ∧
    (cacheHit st w = false → (lookupStep st w net).fetched = true) ∧
    (∀ d2, cacheHit st w = false → net = FetchOutcome.ok d2 →
      (lookupStep st w net).st.lastWordCache = some (w, d2)) ∧
    (cacheHit st w = false →
      (net = FetchOutcome.httpError ∨ net = FetchOutcome.networkError) →
      (lookupStep st w net).st.lastWordCache = st.lastWordCache) := by
  refine ⟨?_, ?_, ?_, ?_⟩
  · intro d hd
    simp [lookupStep, hd]
  · intro hmiss
    cases hc : st.lastWordCache with
    | none => cases net <;> simp [lookupStep, fetchPath, hc]
    | some p =>
      obtain ⟨cw, d0⟩ := p
      have hne : ¬ (cw = w) := by simpa [cacheHit, hc] using hmiss
      cases net <;> simp [lookupStep, fetchPath, hc, hne]
  · intro d2 hmiss hnet
    subst hnet
    cases hc : st.lastWordCache with
    | none => simp [lookupStep, fetchPath, hc]
    | some p =>
      obtain ⟨cw, d0⟩ := p
      have hne : ¬ (cw = w) := by simpa [cacheHit, hc] using hmiss
      simp [lookupStep, fetchPath, hc, hne]
  · intro hmiss hnet
    cases hc : st.lastWordCache with
    | none => rcases hnet with rfl | rfl <;> simp [lookupStep, fetchPath, hc]
    | some p =>
      obtain ⟨cw, d0⟩ := p
      have hne : ¬ (cw = w) := by simpa [cacheHit, hc] using hmiss
      rcases hnet with rfl | rfl <;> simp [lookupStep, fetchPath, hc, hne]

/-- Witness for C3: a warm cache hit makes no request; a cache miss
fetches. -/
theorem claim3_cache_amended_witness :
    ((lookupStep st3Hit catW FetchOutcome.httpError).fetched = false ∧
     (lookupStep st3Hit catW FetchOutcome.httpError).rendered = true ∧
     (lookupStep st3Hit catW FetchOutcome.httpError).st.lastWordCache =
       some (catW, exData)) ∧
    (lookupStep st3Empty dogW (FetchOutcome.ok exDataDog)).fetched = true :=
  ⟨(claim3_cache_amended st3Hit catW FetchOutcome.httpError).1 exData rfl,
   (claim3_cache_amended st3Empty dogW (FetchOutcome.ok exDataDog)).2.1 rfl⟩

/-- C3 counterexample: the first lookup of `"cat"` fails (network error),
so the cache stays empty; the immediately following lookup of the same
word `"cat"` still issues a network request, contradicting the claim that
a same-word second lookup never fetches. -/
theorem claim3_cache_counterexample :
    (lookupStep (lookupStep st3Empty catW FetchOutcome.networkError).st catW
      (FetchOutcome.ok exData)).fetched = true := by
  decide

/-- C4 (amended): pressing Escape closes the app modal but leaves the
word-helper overlay's visibility and the cache untouched; the overlay is
hidden by a click outside it, which also leaves the cache intact, so a
subsequent lookup of the cached word re-shows the overlay without a
network re-fetch. -/
theorem claim4_escape_amended (st : Session) (w : String) (d : DefinitionData)
    (net : FetchOutcome) (hc : st.lastWordCache = some (w, d)) :
    (escapeStep st).helperVisible = st.helperVisible ∧
    (escapeStep st).lastWordCache = st.lastWordCache ∧
    (escapeStep st).modalOpen = false ∧
    (lookupStep (escapeStep st) w net).fetched = false ∧
    (lookupStep (escapeStep st) w net).rendered = true ∧
    (lookupStep (escapeStep st) w net).st.helperVisible = true ∧
    (outsideClickStep st false false).helperVisible = false ∧
    (outsideClickStep st false false).lastWordCache = st.lastWordCache ∧
    (lookupStep (outsideClickStep st false false) w net).fetched = false ∧
    (lookupStep (outsideClickStep st false false) w net).st.helperVisible = true := by
  have hc2 : (escapeStep st).lastWordCache = some (w, d) := hc
  have hc3 : (outsideClickStep st false false).lastWordCache = some (w, d) := by
    simp [outsideClickStep, hc]
  refine ⟨rfl, rfl, rfl, ?_, ?_, ?_, ?_, ?_, ?_, ?_⟩
  · simp [lookupStep, hc2]
  · simp [lookupStep, hc2]
  · simp [lookupStep, hc2]
  · simp [outsideClickStep]
  · simp [outsideClickStep]
  · simp [lookupStep, hc3]
  · simp [lookupStep, hc3]

/-- Witness for C4 at a concrete visible session with a warm cache. -/
theorem claim4_escape_amended_witness :
    (escapeStep st4Visible).helperVisible = st4Visible.helperVisible ∧
    (escapeStep st4Visible).lastWordCache = st4Visible.lastWordCache ∧
    (escapeStep st4Visible).modalOpen = false ∧
    (lookupStep (escapeStep st4Visible) catW FetchOutcome.httpError).fetched = false ∧
    (lookupStep (escapeStep st4Visible) catW FetchOutcome.httpError).rendered = true ∧
    (lookupStep (escapeStep st4Visible) catW FetchOutcome.httpError).st.helperVisible = true ∧
    (outsideClickStep st4Visible false false).helperVisible = false ∧
    (outsideClickStep st4Visible false false).lastWordCache = st4Visible.lastWordCache ∧
    (lookupStep (outsideClickStep st4Visible false false) catW
      FetchOutcome.httpError).fetched = false ∧
    (lookupStep (outsideClickStep st4Visible false false) catW
      FetchOutcome.httpError).st.helperVisible = true :=
  claim4_escape_amended st4Visible catW exData FetchOutcome.httpError rfl

/-- C4 counterexample: with the overlay visible, processing the Escape
keydown leaves the overlay visible — only the app modal is closed — so
the claim "Escape hides the overlay" is false at this state. -/
theorem claim4_escape_counterexample :
    st4Visible.helperVisible = true ∧
    (escapeStep st4Visible).helperVisible = true :=
  ⟨rfl, rfl⟩

/-- C5: the code computes the panel position from raw client (viewport)
coordinates, never adding the scroll offset the claim requires: at anchor
(0,0), panel 50 by 50, viewport 1000 by 1000 and scroll (100,100), the code
yields (10,10) where the claimed document-coordinate algorithm yields
(110,110); the two agree exactly when the scroll offset is zero. -/
theorem claim5_positioning_eval :
    showHelperPos 0 0 50 50 1000 1000 = (10, 10) ∧
    specClampPosition 0 0 50 50 1000 1000 100 100 = (110, 110) ∧
    showHelperPos 0 0 50 50 1000 1000 ≠
      specClampPosition 0 0 50 50 1000 1000 100 100 ∧
    ∀ x y w h iw ih, showHelperPos x y w h iw ih = specClampPosition x y w h iw ih 0 0 := by
  refine ⟨by decide, by decide, by decide, ?_⟩
  intro x y w h iw ih
  unfold showHelperPos specClampPosition
  simp

/-- C8: when the lookup misses the cache and the fetch fails (non-2xx or
thrown error), a request was made, `showHelper` is not invoked, the
overlay ends hidden, and the only failure signal is the console log on the
thrown-error path. -/
theorem claim8_failure_silent (st : Session) (w : String) (net : FetchOutcome)
    (hmiss : cacheHit st w = false)
    (hfail : net = FetchOutcome.httpError ∨ net = FetchOutcome.networkError) :
    (lookupStep st w net).fetched = true ∧
    (lookupStep st w net).rendered = false ∧
    (lookupStep st w net).st.helperVisible = false ∧
    ((lookupStep st w net).logged = true ↔ net = FetchOutcome.networkError) := by
  cases hc : st.lastWordCache with
  | none => rcases hfail with rfl | rfl <;> simp [lookupStep, fetchPath, hc]
  | some p =>
    obtain ⟨cw, d0⟩ := p
    have hne : ¬ (cw = w) := by simpa [cacheHit, hc] using hmiss
    rcases hfail with rfl | rfl <;> simp [lookupStep, fetchPath, hc, hne]

/-- Witness for C8 at an empty cache and a non-2xx response. -/
theorem claim8_failure_silent_witness :
    (lookupStep st3Empty catW FetchOutcome.httpError).fetched = true ∧
    (lookupStep st3Empty catW FetchOutcome.httpError).rendered = false ∧
    (lookupStep st3Empty catW FetchOutcome.httpError).st.helperVisible = false ∧
    ((lookupStep st3Empty catW FetchOutcome.httpError).logged = true ↔
      FetchOutcome.httpError = FetchOutcome.networkError) :=
  claim8_failure_silent st3Empty catW FetchOutcome.httpError rfl (Or.inl rfl)

/-- C9 (amended): the rendered panel carries the word in its header; the
part-of-speech and phonetic fields are rendered exactly when present with
a non-empty value (JS truthiness); the gloss list is the first at most two
senses' glosses in order; the audio control is bound to the first
pronunciation's URL exactly when that URL is present and non-empty. -/
theorem claim9_render_amended (d : DefinitionData) :
    (renderHelper d).headerWord = d.word ∧
    (∀ s, (renderHelper d).headerPos = some s ↔ (d.pos = some s ∧ s ≠ "")) ∧
    (∀ s, (renderHelper d).headerIpa = some s ↔ (d.ipa = some s ∧ s ≠ "")) ∧
    (renderHelper d).glossItems.length = min 2 d.senses.length ∧
    (∀ k, k < 2 → (renderHelper d).glossItems.get? k = (d.senses.get? k).map Sense.gloss) ∧
    (∀ u, (renderHelper d).audioSrc = some u ↔
      (∃ p, d.pronunciations.head? = some p ∧ p.audio_url = some u ∧ u ≠ "")) := by
  refine ⟨rfl, ?_, ?_, ?_, ?_, ?_⟩
  · intro s
    cases hp : d.pos with
    | none => simp [renderHelper, optTruthy, hp]
    | some s0 =>
      by_cases h0 : s0 = ""
      · subst h0
        simp only [renderHelper, optTruthy, hp, if_pos]
        constructor
        · intro h
          exact absurd h (by simp)
        · rintro ⟨h1, h2⟩
          exact absurd (Option.some_injective _ h1).symm h2
      · simp only [renderHelper, optTruthy, hp, if_neg h0]
        constructor
        · intro h
          exact ⟨h, by rw [← Option.some_injective _ h]; exact h0⟩
        · rintro ⟨h1, _⟩
          exact h1
  · intro s
    cases hp : d.ipa with
    | none => simp [renderHelper, optTruthy, hp]
    | some s0 =>
      by_cases h0 : s0 = ""
      · subst h0
        simp only [renderHelper, optTruthy, hp, if_pos]
        constructor
        · intro h
          exact absurd h (by simp)
        · rintro ⟨h1, h2⟩
          exact absurd (Option.some_injective _ h1).symm h2
      · simp only [renderHelper, optTruthy, hp, if_neg h0]
        constructor
        · intro h
          exact ⟨h, by rw [← Option.some_injective _ h]; exact h0⟩
        · rintro ⟨h1, _⟩
          exact h1
  · simp [renderHelper, List.length_map, List.length_take]
  · intro k hk
    simp only [renderHelper]
    rw [List.get?_map, List.get?_take hk]
  · intro u
    cases hps : d.pronunciations with
    | nil => simp [renderHelper, optTruthy, hps]
    | cons p ps =>
      cases hau : p.audio_url with
      | none => simp [renderHelper, optTruthy, hps, hau]
      | some u0 =>
        by_cases h0 : u0 = ""
        · subst h0
          simp only [renderHelper, hps, List.head?_cons, Option.some_bind, hau,
            optTruthy, if_pos]
          constructor
          · intro h
            exact absurd h (by simp)
          · rintro ⟨q, hq1, hq2, hq3⟩
            rw [← Option.some_injective _ hq1] at hq2
            rw [hau] at hq2
            exact absurd (Option.some_injective _ hq2).symm hq3
        · simp only [renderHelper, hps, List.head?_cons, Option.some_bind, hau,
            optTruthy, if_neg h0]
          constructor
          · intro h
            refine ⟨p, rfl, ?_, ?_⟩
            · rw [hau, h]
            · rw [← Option.some_injective _ h]
              exact h0
          · rintro ⟨q, hq1, hq2, _⟩
            rw [← Option.some_injective _ hq1] at hq2
            rw [hau] at hq2
            exact hq2

/-- Witness for C9 at concrete definition payloads. -/
theorem claim9_render_amended_witness :
    (renderHelper exData).headerWord = exData.word ∧
    ((renderHelper exData).headerPos = some nounS ↔
      (exData.pos = some nounS ∧ nounS ≠ "")) ∧
    (renderHelper exData).glossItems.length = min 2 exData.senses.length ∧
    (renderHelper exData).glossItems.get? 0 = (exData.senses.get? 0).map Sense.gloss :=
  ⟨(claim9_render_amended exData).1,
   (claim9_render_amended exData).2.1 nounS,
   (claim9_render_amended exData).2.2.2.1,
   (claim9_render_amended exData).2.2.2.2.1 0 (by decide)⟩

/-- C9 counterexample: a payload whose part-of-speech field is present but
empty is rendered without the part-of-speech — the code tests JS
truthiness, not presence, so "rendered exactly when present" is false. -/
theorem claim9_render_counterexample :
    exDataEmptyPos.pos.isSome = true ∧
    (renderHelper exDataEmptyPos).headerPos = none := by
  constructor
  · rfl
  · decide

end EngageAI
